import Mathlib

set_option maxRecDepth 8000

/-!
Shallow embedding of the Book-Recommender pipeline (core_logic1.py, app1.py).

The language-model call and the HTTP call to the catalog are external
collaborators; they are passed in as parameters (the model reply as a plain
string, the catalog as a function from subject and maxResults to the optional
"items" array of the JSON response).  Everything else is translated directly
from the source.
-/

namespace BookRec

/-- Python `str.lower()`, character-wise (ASCII; the keyword tables of the
source are all ASCII). -/
def pyLower (s : String) : String := String.mk (s.toList.map Char.toLower)

/-- `needle` is a prefix of `hay` (Boolean). -/
def leadsWith : List Char → List Char → Bool
  | [], _ => true
  | _ :: _, [] => false
  | a :: ns, b :: hs => a == b && leadsWith ns hs

/-- `needle` occurs contiguously inside `hay`: Python `needle in hay`. -/
def containsSeq (needle : List Char) : List Char → Bool
  | [] => leadsWith needle []
  | c :: cs => leadsWith needle (c :: cs) || containsSeq needle cs

/-- Python `n in h` on strings. -/
def substrB (n h : String) : Bool := containsSeq n.toList h.toList

/-- Keyword group of the FETCH branch of `dynamic_tool_agent`. -/
def fetchKw (t : String) : Bool :=
  substrB "query" t || substrB "search" t || substrB "find books" t

/-- Keyword group of the FILTER branch of `dynamic_tool_agent`. -/
def filterKw (t : String) : Bool :=
  substrB "filter" t || substrB "rating" t || substrB "top rated" t

/-- Keyword group of the PRESENT branch of `dynamic_tool_agent`. -/
def presentKw (t : String) : Bool :=
  substrB "present" t || substrB "suggest" t || substrB "recommend" t

/-- The ordered canonical-subject table of `extract_subject_from_query`. -/
def subject_keywords : List (String × List String) :=
  [("science fiction", ["science fiction", "sci-fi", "sci fi"]),
   ("fantasy", ["fantasy"]),
   ("thriller", ["thriller", "suspense"]),
   ("romance", ["romance", "love story", "romantic"]),
   ("mystery", ["mystery", "detective", "whodunit"]),
   ("non-fiction", ["non-fiction", "nonfiction", "real story"]),
   ("history", ["history", "historical"]),
   ("horror", ["horror", "scary", "ghost"]),
   ("biography", ["biography", "life of", "memoir"]),
   ("self-help", ["self-help", "motivation", "inspirational"]),
   ("young adult", ["young adult", "ya"]),
   ("poetry", ["poetry", "poems"]),
   ("philosophy", ["philosophy", "thinking", "ethics"]),
   ("comedy", ["comedy", "funny", "humor"]),
   ("drama", ["drama"]),
   ("historical fiction", ["historical fiction", "period drama"])]

/-- A character kept by `re.sub(r'[^\w\s]', '', ...)`: word character or
whitespace (ASCII reading of `\w`). -/
def pyWordOrSpace (c : Char) : Bool := c.isAlphanum || c == '_' || c.isWhitespace

/-- `query.lower()` followed by removal of every non-word, non-space
character, as in `extract_subject_from_query`. -/
def cleanQuery (q : String) : List Char :=
  (q.toList.map Char.toLower).filter pyWordOrSpace

/-- `extract_subject_from_query`: first table entry one of whose phrases
occurs in the cleaned query, else the fallback "fiction". -/
def extract_subject_from_query (query : String) : String :=
  match subject_keywords.find?
      (fun p => p.2.any fun ph => containsSeq ph.toList (cleanQuery query)) with
  | some p => p.1
  | none => "fiction"

/-- `volumeInfo` of one item of the catalog response; every field optional. -/
structure VolumeInfo where
  title : Option String
  authors : Option (List String)
  description : Option String
  averageRating : Option ℚ
  ratingsCount : Option Int
  publishedDate : Option String
  categories : Option (List String)
  infoLink : Option String
deriving DecidableEq

/-- `searchInfo` of one item of the catalog response. -/
structure SearchInfo where
  textSnippet : Option String
deriving DecidableEq

/-- One element of the `items` array of the catalog response. -/
structure BookItem where
  volumeInfo : Option VolumeInfo
  searchInfo : Option SearchInfo
deriving DecidableEq

/-- `book.get("volumeInfo", {})` when the key is absent. -/
def emptyVolumeInfo : VolumeInfo := ⟨none, none, none, none, none, none, none, none⟩

/-- `book.get("searchInfo", {})` when the key is absent. -/
def emptySearchInfo : SearchInfo := ⟨none⟩

/-- The nine-field book dictionary built by `fetch_books`. -/
structure BookRecord where
  title : String
  authors : List String
  description : String
  averageRating : ℚ
  ratingsCount : Int
  publishedDate : String
  categories : List String
  snippet : String
  infoLink : String
deriving DecidableEq

/-- The `{title, authors, averageRating}` projection stored into
`state["books"]` by the FETCH branch. -/
structure BookProj where
  title : String
  authors : List String
  averageRating : ℚ
deriving DecidableEq

/-- The `{title, authors}` projection stored into `state["filtered_books"]`
by the FILTER branch. -/
structure FilteredBook where
  title : String
  authors : List String
deriving DecidableEq

/-- The external catalog endpoint: subject and maxResults to the optional
`items` array (`data.get("items", [])`). -/
abbrev Catalog := String → Nat → Option (List BookItem)

/-- `fetch_books`: normalise every fetched item, substituting the defaults of
the source for each missing field. -/
def fetch_books (catalog : Catalog) (subject : String) (max_results : Nat) :
    List BookRecord :=
  let items := (catalog subject max_results).getD []
  items.map fun book =>
    let info := book.volumeInfo.getD emptyVolumeInfo
    { title := info.title.getD "N/A"
      authors := info.authors.getD ["N/A"]
      description := info.description.getD "No summary found."
      averageRating := info.averageRating.getD 0
      ratingsCount := info.ratingsCount.getD 0
      publishedDate := info.publishedDate.getD ""
      categories := info.categories.getD []
      snippet := ((book.searchInfo.getD emptySearchInfo).textSnippet).getD
        "No review snippet found."
      infoLink := info.infoLink.getD "" }

/-- Python literal values, as produced by `ast.literal_eval` on a plan reply
(dictionary keys restricted to strings, which is all the plan grammar uses). -/
inductive PyValue where
  | str (s : String)
  | int (n : Int)
  | list (xs : List PyValue)
  | dict (kvs : List (String × PyValue))
  | pynone

/-- The exceptions the translated fragments can raise. -/
inductive PErr where
  | keyError
  | typeError
  | attributeError
  | valueError
  | assertError
deriving DecidableEq

/-- Python dict lookup on a literal association list (later duplicate keys
overwrite earlier ones, as in dict construction). -/
def pyDictGet (kvs : List (String × PyValue)) (k : String) : Option PyValue :=
  kvs.foldl (fun acc p => if p.1 = k then some p.2 else acc) Option.none

/-- `task_dict["task"]`: KeyError on a mapping without the key, TypeError on
any non-mapping value. -/
def pySubscript : PyValue → String → Except PErr PyValue
  | PyValue.dict kvs, k =>
    match pyDictGet kvs k with
    | some v => Except.ok v
    | Option.none => Except.error PErr.keyError
  | _, _ => Except.error PErr.typeError

/-- `v.lower()`: AttributeError unless `v` is a string. -/
def pyLowerMethod : PyValue → Except PErr String
  | PyValue.str s => Except.ok (pyLower s)
  | _ => Except.error PErr.attributeError

/-- `state["top_book"]` after PRESENT: the first filtered entry, or the empty
dict `{}`. -/
inductive TopBook where
  | book (b : FilteredBook)
  | emptyDict
deriving DecidableEq

/-- The shared `BookState`.  `plan`, `current_step` and `done` are written by
`plan_node` before the executor ever reads them (the graph runs the planner
first); the accumulator fields are `Option` so that `.get` defaults of the
source are modelled exactly. -/
structure BookState where
  user_query : Option String
  plan : List PyValue
  current_step : Nat
  done : Bool
  books : Option (List BookProj)
  filtered_books : Option (List FilteredBook)
  top_book : Option TopBook
  presentation : Option (List String)

/-- One step of the stable descending insertion used to model
`sorted(books, key=..., reverse=True)` (Python sort is stable; with
`reverse=True` ties keep source order). -/
def insertByRating (b : BookProj) : List BookProj → List BookProj
  | [] => [b]
  | c :: cs =>
    if c.averageRating ≤ b.averageRating then b :: c :: cs
    else c :: insertByRating b cs

/-- The stable descending sort by `averageRating` of the FILTER branch. -/
def sortByRatingDesc : List BookProj → List BookProj
  | [] => []
  | b :: bs => insertByRating b (sortByRatingDesc bs)

/-- Non-increasing rating order: the relation the FILTER output is sorted
by. -/
def ratingGE (a c : BookProj) : Prop := c.averageRating ≤ a.averageRating

/-- The first component of the pair returned by `dynamic_tool_agent`. -/
inductive ToolRet where
  | fetched (books : List BookRecord)
  | filtered (books : List BookProj)
  | presented (titles : List String)
  | pyNone

/-- `dynamic_tool_agent`: one plan step against the state.  In the FILTER
branch `b.get("averageRating", 0)` is the (always present) rating field of
the stored projection. -/
def dynamic_tool_agent (catalog : Catalog) (task_dict : PyValue)
    (state : BookState) : Except PErr (ToolRet × BookState) := do
  let v ← pySubscript task_dict "task"
  let task ← pyLowerMethod v
  let user_query := state.user_query.getD ""
  let subject := extract_subject_from_query user_query
  if fetchKw task then
    let books := fetch_books catalog subject 10
    Except.ok (ToolRet.fetched books,
      { state with
        books := some (books.map fun b => ⟨b.title, b.authors, b.averageRating⟩) })
  else if filterKw task then
    let books := state.books.getD []
    let filtered := sortByRatingDesc books
    Except.ok (ToolRet.filtered filtered,
      { state with
        filtered_books := some (filtered.map fun b => ⟨b.title, b.authors⟩) })
  else if presentKw task then
    let filtered := state.filtered_books.getD []
    let pres := (filtered.take 5).map FilteredBook.title
    Except.ok (ToolRet.presented pres,
      { state with
        presentation := some pres
        top_book := some (match filtered with
          | [] => TopBook.emptyDict
          | x :: _ => TopBook.book x) })
  else
    Except.ok (ToolRet.pyNone, state)

/-- `tool_node`: one executor invocation; dispatches only while the index is
below the plan length, then increments it and refreshes the completion
flag. -/
def tool_node (catalog : Catalog) (state : BookState) : Except PErr BookState :=
  if h : state.current_step ≥ state.plan.length then
    Except.ok { state with done := true }
  else do
    let task := state.plan.get ⟨state.current_step, by omega⟩
    let (_, updated) ← dynamic_tool_agent catalog task state
    Except.ok { updated with
      current_step := state.current_step + 1
      done := decide (state.current_step + 1 ≥ state.plan.length) }

/-- `plan_node` with the list returned by `plan_agent` supplied as a
parameter (the model call is external). -/
def plan_node (state : BookState) (plan : List PyValue) : BookState :=
  { state with plan := plan, current_step := 0, done := false }

/-- `k` consecutive executor invocations (the conditional edge re-invokes the
executor until `done` is observed). -/
def execN (catalog : Catalog) : Nat → BookState → Except PErr BookState
  | 0, s => Except.ok s
  | k + 1, s => (tool_node catalog s).bind (execN catalog k)

/-- The initial state built by app1.py: `{"user_query": user_query}`. -/
def initState (q : String) : BookState :=
  { user_query := some q, plan := [], current_step := 0, done := false,
    books := none, filtered_books := none, top_book := none, presentation := none }

/-- Python whitespace, for `str.strip()` and the literal grammar. -/
def isWsChar (c : Char) : Bool :=
  c == ' ' || c == '\t' || c == '\n' || c == '\r'

/-- Drop leading whitespace. -/
def skipWs (s : List Char) : List Char := s.dropWhile isWsChar

/-- Python `str.strip()`: drop whitespace from both ends. -/
def pyStrip (s : List Char) : List Char :=
  ((s.dropWhile isWsChar).reverse.dropWhile isWsChar).reverse

/-- The single quote character. -/
def sq : Char := Char.ofNat 39

/-- The opening curly brace. -/
def lcur : Char := Char.ofNat 123

/-- The closing curly brace. -/
def rcur : Char := Char.ofNat 125

/-- `re.search(r'\[.*\]', s, re.DOTALL)`: the match, when it exists, runs
from the first `[` of the string to the last `]` (the `.*` is greedy). -/
def extractSpan (s : List Char) : Option (List Char) :=
  match s.dropWhile (fun c => !(c == '[')) with
  | [] => Option.none
  | c :: u =>
    if ((u.reverse.dropWhile (fun d => !(d == ']'))).reverse).isEmpty then Option.none
    else some (c :: (u.reverse.dropWhile (fun d => !(d == ']'))).reverse)

/-- Body of a quoted string literal up to the closing quote `q`
(escape sequences are outside the modelled grammar). -/
def parseStrBody (q : Char) : List Char → Option (List Char × List Char)
  | [] => Option.none
  | c :: cs =>
    if c == q then some ([], cs)
    else if c == '\\' then Option.none
    else
      match parseStrBody q cs with
      | some (b, r) => some (c :: b, r)
      | Option.none => Option.none

mutual

/-- One Python literal of the plan grammar (string, list or dictionary),
with the remaining input; the fuel only bounds recursion depth. -/
def parseValue : Nat → List Char → Option (PyValue × List Char)
  | 0, _ => Option.none
  | fuel + 1, s =>
    match skipWs s with
    | [] => Option.none
    | c :: cs =>
      if c == '"' || c == sq then
        match parseStrBody c cs with
        | some (b, r) => some (PyValue.str (String.mk b), r)
        | Option.none => Option.none
      else if c == '[' then
        match parseListRest fuel cs with
        | some (xs, r) => some (PyValue.list xs, r)
        | Option.none => Option.none
      else if c == lcur then
        match parseDictRest fuel cs with
        | some (kvs, r) => some (PyValue.dict kvs, r)
        | Option.none => Option.none
      else Option.none

/-- Elements of a list literal after the opening `[`, consuming the
closing `]` (trailing commas allowed, as in Python). -/
def parseListRest : Nat → List Char → Option (List PyValue × List Char)
  | 0, _ => Option.none
  | fuel + 1, s =>
    match skipWs s with
    | [] => Option.none
    | c :: cs =>
      if c == ']' then some ([], cs)
      else
        match parseValue fuel (c :: cs) with
        | some (v, r) =>
          match skipWs r with
          | [] => Option.none
          | d :: ds =>
            if d == ']' then some ([v], ds)
            else if d == ',' then
              match parseListRest fuel ds with
              | some (vs, r2) => some (v :: vs, r2)
              | Option.none => Option.none
            else Option.none
        | Option.none => Option.none

/-- Entries of a dictionary literal after the opening brace, consuming the
closing brace; keys are string literals. -/
def parseDictRest : Nat → List Char → Option (List (String × PyValue) × List Char)
  | 0, _ => Option.none
  | fuel + 1, s =>
    match skipWs s with
    | [] => Option.none
    | c :: cs =>
      if c == rcur then some ([], cs)
      else if c == '"' || c == sq then
        match parseStrBody c cs with
        | some (k, r) =>
          match skipWs r with
          | ':' :: r2 =>
            match parseValue fuel r2 with
            | some (v, r3) =>
              match skipWs r3 with
              | [] => Option.none
              | d :: ds =>
                if d == rcur then some ([(String.mk k, v)], ds)
                else if d == ',' then
                  match parseDictRest fuel ds with
                  | some (kvs, r4) => some ((String.mk k, v) :: kvs, r4)
                  | Option.none => Option.none
                else Option.none
            | Option.none => Option.none
          | _ => Option.none
        | Option.none => Option.none
      else Option.none

end

/-- `ast.literal_eval` on the plan grammar: one literal, nothing but
whitespace around it. -/
def pyLiteralEval (s : List Char) : Option PyValue :=
  match parseValue (2 * s.length + 2) s with
  | some (v, r) => if (skipWs r).isEmpty then some v else Option.none
  | Option.none => Option.none

/-- `plan_agent` applied to the text of the model reply: strip it, replace it
by the regex match when one exists (else keep the stripped reply),
deserialise, and insist on a list (the `assert`). -/
def plan_agent (content : String) : Except PErr (List PyValue) :=
  match pyLiteralEval
      ((extractSpan (pyStrip content.toList)).getD (pyStrip content.toList)) with
  | some (PyValue.list xs) => Except.ok xs
  | some _ => Except.error PErr.assertError
  | Option.none => Except.error PErr.valueError

/-- Whether the string has a `[` followed (later) by a `]` — exactly the
condition for `re.search(r'\[.*\]', s, re.DOTALL)` to match. -/
def bracketPairB (s : List Char) : Bool :=
  ((s.dropWhile fun c => !(c == '[')).drop 1).any fun d => d == ']'

/-- A structurally well-formed plan element: a mapping whose "task" entry is
a string — the shape `dynamic_tool_agent` reads without raising. -/
def isWfStep : PyValue → Bool
  | PyValue.dict kvs =>
    match pyDictGet kvs "task" with
    | some (PyValue.str _) => true
    | _ => false
  | _ => false

/-- Whether the `j`-th executor invocation of the run starting at `s0`
dispatches a step to `dynamic_tool_agent` (it does exactly when the index is
still below the plan length). -/
def dispatchFlag (catalog : Catalog) (s0 : BookState) (j : Nat) : Bool :=
  match execN catalog j s0 with
  | Except.ok s => decide (s.current_step < s.plan.length)
  | Except.error _ => false

/-- A two-step, structurally well-formed fixture plan (concrete input for
run theorems). -/
def demoPlan : List PyValue :=
  [PyValue.dict [("task", PyValue.str "Search for science fiction books")],
   PyValue.dict [("task", PyValue.str "suggest the best one")]]

/-- The three-step plan of the worked example in the planner prompt. -/
def examplePlan : List PyValue :=
  [PyValue.dict [("task", PyValue.str "Query a book database or API for science fiction books.")],
   PyValue.dict [("task", PyValue.str "Filter the results to identify books with high ratings.")],
   PyValue.dict [("task", PyValue.str "Present the book with the highest overall score based on the ranking criteria as the suggested best science fiction book.")]]

/-- A catalog stub whose response has no items. -/
def emptyCatalog : Catalog := fun _ _ => some []

/-- A catalog stub returning one item carrying only a title. -/
def oneBookCatalog : Catalog := fun _ _ =>
  some [⟨some ⟨some "Dune", none, none, none, none, none, none, none⟩, none⟩]

/-- What the output panel of app1.py shows. -/
inductive Display where
  | titles (ts : List String)
  | notice
deriving DecidableEq

/-- app1.py: `st.write` of the presentation when the key is present in the
final state, else the `st.warning` notice. -/
def display (final : BookState) : Display :=
  match final.presentation with
  | some p => Display.titles p
  | none => Display.notice

/-! ### The stable descending sort: membership, permutation, sortedness,
stability -/

lemma mem_insertByRating {x b : BookProj} {l : List BookProj} :
    x ∈ insertByRating b l ↔ x = b ∨ x ∈ l := by
  induction l with
  | nil => simp [insertByRating]
  | cons c cs ih =>
    by_cases h : c.averageRating ≤ b.averageRating
    · simp [insertByRating, h]
    · simp [insertByRating, h, ih]
      tauto

lemma insertByRating_perm (b : BookProj) (l : List BookProj) :
    List.Perm (insertByRating b l) (b :: l) := by
  induction l with
  | nil => simp [insertByRating]
  | cons c cs ih =>
    by_cases h : c.averageRating ≤ b.averageRating
    · simp [insertByRating, h]
    · simp only [insertByRating, if_neg h]
      exact (ih.cons c).trans (List.Perm.swap b c cs)

lemma sortByRatingDesc_perm (l : List BookProj) :
    List.Perm (sortByRatingDesc l) l := by
  induction l with
  | nil => simp [sortByRatingDesc]
  | cons b bs ih => exact (insertByRating_perm b _).trans (ih.cons b)

lemma pairwise_insertByRating {b : BookProj} {l : List BookProj}
    (h : l.Pairwise ratingGE) : (insertByRating b l).Pairwise ratingGE := by
  induction l with
  | nil => simp [insertByRating]
  | cons c cs ih =>
    rcases List.pairwise_cons.mp h with ⟨hc, hcs⟩
    by_cases hcb : c.averageRating ≤ b.averageRating
    · simp only [insertByRating, if_pos hcb]
      refine List.pairwise_cons.mpr ⟨?_, h⟩
      intro y hy
      rcases List.mem_cons.mp hy with rfl | hy
      · exact hcb
      · exact le_trans (hc y hy) hcb
    · simp only [insertByRating, if_neg hcb]
      refine List.pairwise_cons.mpr ⟨?_, ih hcs⟩
      intro y hy
      rcases mem_insertByRating.mp hy with rfl | hy
      · exact (not_le.mp hcb).le
      · exact hc y hy

lemma sortByRatingDesc_pairwise (l : List BookProj) :
    (sortByRatingDesc l).Pairwise ratingGE := by
  induction l with
  | nil => simp [sortByRatingDesc]
  | cons b bs ih => exact pairwise_insertByRating ih

lemma filter_insertByRating (b : BookProj) (l : List BookProj) (q : ℚ) :
    (insertByRating b l).filter (fun x => decide (x.averageRating = q)) =
      if b.averageRating = q
      then b :: l.filter (fun x => decide (x.averageRating = q))
      else l.filter (fun x => decide (x.averageRating = q)) := by
  induction l with
  | nil => by_cases hb : b.averageRating = q <;> simp [insertByRating, hb]
  | cons c cs ih =>
    by_cases hcb : c.averageRating ≤ b.averageRating
    · simp only [insertByRating, if_pos hcb]
      by_cases hb : b.averageRating = q <;> simp [hb]
    · simp only [insertByRating, if_neg hcb]
      have hbc : b.averageRating < c.averageRating := not_le.mp hcb
      by_cases hb : b.averageRating = q
      · have hcq : ¬(c.averageRating = q) := by
          intro hcq; rw [hb] at hbc; rw [hcq] at hbc; exact lt_irrefl q hbc
        simp [hb, hcq, ih]
      · by_cases hcq : c.averageRating = q <;> simp [hb, hcq, ih]

lemma sortByRatingDesc_filter (l : List BookProj) (q : ℚ) :
    (sortByRatingDesc l).filter (fun x => decide (x.averageRating = q)) =
      l.filter (fun x => decide (x.averageRating = q)) := by
  induction l with
  | nil => rfl
  | cons b bs ih =>
    by_cases hb : b.averageRating = q <;>
      simp [sortByRatingDesc, filter_insertByRating, hb, ih]

/-! ### Branch behaviour of the Step Dispatcher -/

lemma dta_fetch {c : Catalog} {kvs : List (String × PyValue)} {t : String} {st : BookState}
    (hv : pyDictGet kvs "task" = some (PyValue.str t))
    (hf : fetchKw (pyLower t) = true) :
    ∃ st2,
      dynamic_tool_agent c (PyValue.dict kvs) st =
        Except.ok (ToolRet.fetched
          (fetch_books c (extract_subject_from_query (st.user_query.getD "")) 10), st2) ∧
      st2.books = some
        ((fetch_books c (extract_subject_from_query (st.user_query.getD "")) 10).map
          fun b => ⟨b.title, b.authors, b.averageRating⟩) ∧
      st2.user_query = st.user_query ∧ st2.plan = st.plan ∧
      st2.current_step = st.current_step ∧ st2.done = st.done ∧
      st2.filtered_books = st.filtered_books ∧ st2.top_book = st.top_book ∧
      st2.presentation = st.presentation := by
  refine ⟨{ st with books := some ((fetch_books c (extract_subject_from_query (st.user_query.getD "")) 10).map fun b => ⟨b.title, b.authors, b.averageRating⟩) }, ?_, rfl, rfl, rfl, rfl, rfl, rfl, rfl, rfl⟩
  simp [dynamic_tool_agent, pySubscript, hv, pyLowerMethod, hf, Except.bind, Bind.bind]

lemma dta_filter {c : Catalog} {kvs : List (String × PyValue)} {t : String} {st : BookState}
    (hv : pyDictGet kvs "task" = some (PyValue.str t))
    (hf : fetchKw (pyLower t) = false)
    (hfil : filterKw (pyLower t) = true) :
    ∃ st2,
      dynamic_tool_agent c (PyValue.dict kvs) st =
        Except.ok (ToolRet.filtered (sortByRatingDesc (st.books.getD [])), st2) ∧
      st2.filtered_books = some
        ((sortByRatingDesc (st.books.getD [])).map fun b => ⟨b.title, b.authors⟩) ∧
      st2.user_query = st.user_query ∧ st2.plan = st.plan ∧
      st2.current_step = st.current_step ∧ st2.done = st.done ∧
      st2.books = st.books ∧ st2.top_book = st.top_book ∧
      st2.presentation = st.presentation := by
  refine ⟨{ st with filtered_books := some ((sortByRatingDesc (st.books.getD [])).map fun b => ⟨b.title, b.authors⟩) }, ?_, rfl, rfl, rfl, rfl, rfl, rfl, rfl, rfl⟩
  simp [dynamic_tool_agent, pySubscript, hv, pyLowerMethod, hf, hfil, Except.bind, Bind.bind]

lemma dta_present {c : Catalog} {kvs : List (String × PyValue)} {t : String} {st : BookState}
    (hv : pyDictGet kvs "task" = some (PyValue.str t))
    (hf : fetchKw (pyLower t) = false)
    (hfil : filterKw (pyLower t) = false)
    (hp : presentKw (pyLower t) = true) :
    ∃ st2,
      dynamic_tool_agent c (PyValue.dict kvs) st =
        Except.ok (ToolRet.presented
          (((st.filtered_books.getD []).take 5).map FilteredBook.title), st2) ∧
      st2.presentation = some (((st.filtered_books.getD []).take 5).map FilteredBook.title) ∧
      st2.top_book = some (match st.filtered_books.getD [] with | [] => TopBook.emptyDict | x :: _ => TopBook.book x) ∧
      st2.user_query = st.user_query ∧ st2.plan = st.plan ∧
      st2.current_step = st.current_step ∧ st2.done = st.done ∧
      st2.books = st.books ∧ st2.filtered_books = st.filtered_books := by
  refine ⟨{ st with presentation := some (((st.filtered_books.getD []).take 5).map FilteredBook.title), top_book := some (match st.filtered_books.getD [] with | [] => TopBook.emptyDict | x :: _ => TopBook.book x) }, ?_, rfl, rfl, rfl, rfl, rfl, rfl, rfl, rfl⟩
  simp [dynamic_tool_agent, pySubscript, hv, pyLowerMethod, hf, hfil, hp, Except.bind, Bind.bind]

lemma dta_noop {c : Catalog} {kvs : List (String × PyValue)} {t : String} {st : BookState}
    (hv : pyDictGet kvs "task" = some (PyValue.str t))
    (hf : fetchKw (pyLower t) = false)
    (hfil : filterKw (pyLower t) = false)
    (hp : presentKw (pyLower t) = false) :
    dynamic_tool_agent c (PyValue.dict kvs) st = Except.ok (ToolRet.pyNone, st) := by
  simp [dynamic_tool_agent, pySubscript, hv, pyLowerMethod, hf, hfil, hp, Except.bind, Bind.bind]

lemma isWfStep_shape {td : PyValue} (hw : isWfStep td = true) :
    ∃ kvs t, td = PyValue.dict kvs ∧ pyDictGet kvs "task" = some (PyValue.str t) := by
  cases td with
  | dict kvs =>
    cases hv : pyDictGet kvs "task" with
    | none => simp [isWfStep, hv] at hw
    | some v =>
      cases v with
      | str t => exact ⟨kvs, t, rfl, hv⟩
      | int n => simp [isWfStep, hv] at hw
      | list xs => simp [isWfStep, hv] at hw
      | dict kvs2 => simp [isWfStep, hv] at hw
      | pynone => simp [isWfStep, hv] at hw
  | str s => simp [isWfStep] at hw
  | int n => simp [isWfStep] at hw
  | list xs => simp [isWfStep] at hw
  | pynone => simp [isWfStep] at hw

lemma dta_wf {c : Catalog} {td : PyValue} {st : BookState} (hw : isWfStep td = true) :
    ∃ r st2, dynamic_tool_agent c td st = Except.ok (r, st2) ∧
      st2.plan = st.plan ∧ st2.user_query = st.user_query ∧
      st2.current_step = st.current_step ∧ st2.done = st.done := by
  obtain ⟨kvs, t, rfl, hv⟩ := isWfStep_shape hw
  by_cases h1 : fetchKw (pyLower t) = true
  · obtain ⟨st2, heq, _, huq, hplan, hcs, hdone, _, _, _⟩ := @dta_fetch c kvs t st hv h1
    exact ⟨_, st2, heq, hplan, huq, hcs, hdone⟩
  · have h1f : fetchKw (pyLower t) = false := by simpa using h1
    by_cases h2 : filterKw (pyLower t) = true
    · obtain ⟨st2, heq, _, huq, hplan, hcs, hdone, _, _, _⟩ := @dta_filter c kvs t st hv h1f h2
      exact ⟨_, st2, heq, hplan, huq, hcs, hdone⟩
    · have h2f : filterKw (pyLower t) = false := by simpa using h2
      by_cases h3 : presentKw (pyLower t) = true
      · obtain ⟨st2, heq, _, _, huq, hplan, hcs, hdone, _, _⟩ := @dta_present c kvs t st hv h1f h2f h3
        exact ⟨_, st2, heq, hplan, huq, hcs, hdone⟩
      · have h3f : presentKw (pyLower t) = false := by simpa using h3
        exact ⟨_, st, dta_noop hv h1f h2f h3f, rfl, rfl, rfl, rfl⟩

/-! ### The Plan Runner: one invocation, then the whole run -/

lemma tool_node_past {c : Catalog} {st : BookState}
    (h : st.plan.length ≤ st.current_step) :
    tool_node c st = Except.ok { st with done := true } := by
  unfold tool_node
  rw [dif_pos h]

lemma tool_node_dispatch {c : Catalog} {st : BookState}
    (h : st.current_step < st.plan.length)
    (hw : isWfStep (st.plan.get ⟨st.current_step, h⟩) = true) :
    ∃ st2, tool_node c st = Except.ok st2 ∧ st2.plan = st.plan ∧
      st2.user_query = st.user_query ∧
      st2.current_step = st.current_step + 1 ∧
      st2.done = decide (st.plan.length ≤ st.current_step + 1) := by
  obtain ⟨r, su, heq, hplan, huq, hcs, hdone⟩ :=
    @dta_wf c (st.plan.get ⟨st.current_step, h⟩) st hw
  have hnot : ¬ (st.current_step ≥ st.plan.length) := by omega
  refine ⟨{ su with current_step := st.current_step + 1, done := decide (st.current_step + 1 ≥ st.plan.length) }, ?_, hplan, huq, rfl, rfl⟩
  unfold tool_node
  rw [dif_neg hnot]
  simp only [List.get_eq_getElem] at heq
  simp [heq, Except.bind, Bind.bind]

lemma execN_succ_back (c : Catalog) (j : Nat) (s : BookState) :
    execN c (j + 1) s = (execN c j s).bind (tool_node c) := by
  induction j generalizing s with
  | zero =>
    show (tool_node c s).bind (execN c 0) = (Except.ok s).bind (tool_node c)
    cases h : tool_node c s <;> simp [execN, h, Except.bind]
  | succ j ih =>
    show (tool_node c s).bind (execN c (j + 1)) =
      ((tool_node c s).bind (execN c j)).bind (tool_node c)
    cases h : tool_node c s with
    | ok s2 =>
      show execN c (j + 1) s2 = (execN c j s2).bind (tool_node c)
      exact ih s2
    | error e => rfl

lemma execN_run (c : Catalog) (q : String) (plan : List PyValue)
    (hw : plan.all isWfStep = true) :
    ∀ j, j ≤ max plan.length 1 →
      ∃ sj, execN c j (plan_node (initState q) plan) = Except.ok sj ∧
        sj.plan = plan ∧ sj.user_query = some q ∧
        sj.current_step = min j plan.length ∧
        sj.done = decide (max plan.length 1 ≤ j) := by
  intro j
  induction j with
  | zero =>
    intro _
    refine ⟨plan_node (initState q) plan, rfl, rfl, rfl, ?_, ?_⟩
    · show (0 : Nat) = min 0 plan.length
      omega
    · show false = decide (max plan.length 1 ≤ 0)
      have : ¬ (max plan.length 1 ≤ 0) := by omega
      simp [this]
  | succ j ih =>
    intro hj
    obtain ⟨sj, hexec, hplan, huq, hstep, hdone⟩ := ih (by omega)
    rw [execN_succ_back, hexec]
    by_cases hcase : j < plan.length
    · have hstep2 : sj.current_step = j := by rw [hstep]; omega
      have hlt : sj.current_step < sj.plan.length := by
        rw [hstep2, hplan]; exact hcase
      have hwstep : isWfStep (sj.plan.get ⟨sj.current_step, hlt⟩) = true := by
        apply List.all_eq_true.mp hw
        have := List.get_mem sj.plan sj.current_step hlt
        rw [← hplan]
        exact this
      obtain ⟨st2, htool, h1, h2, h3, h4⟩ := @tool_node_dispatch c sj hlt hwstep
      refine ⟨st2, ?_, by rw [h1, hplan], by rw [h2, huq], ?_, ?_⟩
      · show Except.bind (Except.ok sj) (tool_node c) = Except.ok st2
        simpa [Except.bind] using htool
      · rw [h3, hstep2]
        omega
      · rw [h4, hplan, hstep2]
        simp only [decide_eq_decide]
        omega
    · have hge : sj.plan.length ≤ sj.current_step := by
        rw [hplan, hstep]; omega
      rw [show Except.bind (Except.ok sj) (tool_node c) = tool_node c sj from rfl,
        tool_node_past hge]
      refine ⟨_, rfl, hplan, huq, ?_, ?_⟩
      · show sj.current_step = min (j + 1) plan.length
        rw [hstep]; omega
      · show true = decide (max plan.length 1 ≤ j + 1)
        have : max plan.length 1 ≤ j + 1 := by omega
        simp [this]

lemma countP_range_lt (n k : Nat) (h : n ≤ k) :
    (List.range k).countP (fun j => decide (j < n)) = n := by
  induction k with
  | zero =>
    have : n = 0 := by omega
    subst this
    rfl
  | succ k ih =>
    rw [List.range_succ, List.countP_append]
    by_cases hnk : n ≤ k
    · have hk : decide (k < n) = false := by
        simp only [decide_eq_false_iff_not]
        omega
      rw [ih hnk]
      simp [List.countP_cons, hk]
    · have hn : n = k + 1 := by omega
      subst hn
      have hall : (List.range k).countP (fun j => decide (j < k + 1)) = k := by
        have hiff := @List.countP_eq_length ℕ (List.range k) fun j => decide (j < k + 1)
        rw [hiff.mpr, List.length_range]
        intro a ha
        simp only [decide_eq_true_eq]
        have := List.mem_range.mp ha
        omega
      rw [hall]
      simp [List.countP_cons]

lemma dispatchFlag_eq (c : Catalog) (q : String) (plan : List PyValue)
    (hw : plan.all isWfStep = true) (j : Nat) (hj : j ≤ max plan.length 1) :
    dispatchFlag c (plan_node (initState q) plan) j = decide (j < plan.length) := by
  obtain ⟨sj, hexec, hplan, _, hstep, _⟩ := execN_run c q plan hw j hj
  unfold dispatchFlag
  rw [hexec]
  show decide (sj.current_step < sj.plan.length) = decide (j < plan.length)
  rw [hstep, hplan]
  simp only [decide_eq_decide]
  omega

/-- C1 (amended).  For every plan of structurally well-formed steps, the run
(planner output, then repeated executor invocations) reaches a `done` state
after exactly `max (len plan) 1` executor invocations and exactly `len plan`
dispatches to the Step Dispatcher (zero for an empty plan); the step index
equals `min j (len plan)` after `j` invocations, so it is monotonically
non-decreasing and bounded by the plan length; after every executor
invocation the flag is true exactly when the index has reached the plan
length; and the planner output itself always carries a false flag (for the
empty plan this is the one run state where the index equals the plan length
while the flag is still false). -/
theorem plan_runner_run (c : Catalog) (q : String) (plan : List PyValue)
    (hw : plan.all isWfStep = true) :
    (∃ sf, execN c (max plan.length 1) (plan_node (initState q) plan) = Except.ok sf ∧
        sf.done = true ∧ sf.current_step = plan.length) ∧
    (∀ j, j < max plan.length 1 →
      ∃ sj, execN c j (plan_node (initState q) plan) = Except.ok sj ∧ sj.done = false) ∧
    ((List.range (max plan.length 1)).countP
        (dispatchFlag c (plan_node (initState q) plan)) = plan.length) ∧
    (∀ j, j ≤ max plan.length 1 →
      ∃ sj, execN c j (plan_node (initState q) plan) = Except.ok sj ∧
        sj.current_step = min j plan.length ∧ sj.current_step ≤ plan.length ∧
        (1 ≤ j → (sj.done = true ↔ sj.current_step = plan.length))) ∧
    (plan_node (initState q) plan).done = false := by
  refine ⟨?_, ?_, ?_, ?_, rfl⟩
  · obtain ⟨sf, hexec, _, _, hstep, hdone⟩ :=
      execN_run c q plan hw (max plan.length 1) (le_refl _)
    refine ⟨sf, hexec, ?_, ?_⟩
    · rw [hdone]
      simp
    · rw [hstep]
      omega
  · intro j hj
    obtain ⟨sj, hexec, _, _, _, hdone⟩ := execN_run c q plan hw j (by omega)
    refine ⟨sj, hexec, ?_⟩
    rw [hdone]
    simp only [decide_eq_false_iff_not]
    omega
  · rw [@List.countP_congr ℕ _ (fun j => decide (j < plan.length)) _
      (fun x hx => by
        rw [dispatchFlag_eq c q plan hw x (by
          have := List.mem_range.mp hx
          omega)])]
    exact countP_range_lt plan.length (max plan.length 1) (by omega)
  · intro j hj
    obtain ⟨sj, hexec, _, _, hstep, hdone⟩ := execN_run c q plan hw j hj
    refine ⟨sj, hexec, hstep, by rw [hstep]; omega, ?_⟩
    intro hj1
    rw [hdone, hstep]
    simp only [decide_eq_true_eq]
    omega

/-- Witness for C1 (amended): the two-step fixture plan against the empty
catalog, with every hypothesis discharged by evaluation. -/
theorem plan_runner_run_witness :
    (demoPlan.all isWfStep = true) ∧
    ((∃ sf, execN emptyCatalog (max demoPlan.length 1)
          (plan_node (initState "hi") demoPlan) = Except.ok sf ∧
        sf.done = true ∧ sf.current_step = demoPlan.length) ∧
    (∀ j, j < max demoPlan.length 1 →
      ∃ sj, execN emptyCatalog j (plan_node (initState "hi") demoPlan) = Except.ok sj ∧
        sj.done = false) ∧
    ((List.range (max demoPlan.length 1)).countP
        (dispatchFlag emptyCatalog (plan_node (initState "hi") demoPlan)) =
      demoPlan.length) ∧
    (∀ j, j ≤ max demoPlan.length 1 →
      ∃ sj, execN emptyCatalog j (plan_node (initState "hi") demoPlan) = Except.ok sj ∧
        sj.current_step = min j demoPlan.length ∧
        sj.current_step ≤ demoPlan.length ∧
        (1 ≤ j → (sj.done = true ↔ sj.current_step = demoPlan.length))) ∧
    (plan_node (initState "hi") demoPlan).done = false) :=
  ⟨rfl, plan_runner_run emptyCatalog "hi" demoPlan rfl⟩

/-- Counterexample to C1 as stated: on the empty plan, the state produced by
the planner already has `current_step` equal to the plan length while the
completion flag is still false, so "the done flag is true exactly when
current_step has reached the plan length" fails across the run. -/
theorem plan_runner_empty_plan_flag :
    (plan_node (initState "") []).current_step = ([] : List PyValue).length ∧
    (plan_node (initState "") []).done = false :=
  ⟨rfl, rfl⟩

/-- C2: for a step whose task text is a string, the dispatcher classifies
the lowercased text by first matching keyword group in the fixed priority
order FETCH ("query"/"search"/"find books"), then FILTER
("filter"/"rating"/"top rated"), then PRESENT
("present"/"suggest"/"recommend"), and otherwise is a NO-OP returning the
state unchanged. -/
theorem dispatcher_priority (c : Catalog) (kvs : List (String × PyValue))
    (t : String) (st : BookState)
    (hv : pyDictGet kvs "task" = some (PyValue.str t)) :
    (fetchKw (pyLower t) = true →
      ∃ st2, dynamic_tool_agent c (PyValue.dict kvs) st =
        Except.ok (ToolRet.fetched (fetch_books c (extract_subject_from_query (st.user_query.getD "")) 10), st2)) ∧
    (fetchKw (pyLower t) = false → filterKw (pyLower t) = true →
      ∃ st2, dynamic_tool_agent c (PyValue.dict kvs) st =
        Except.ok (ToolRet.filtered (sortByRatingDesc (st.books.getD [])), st2)) ∧
    (fetchKw (pyLower t) = false → filterKw (pyLower t) = false →
      presentKw (pyLower t) = true →
      ∃ st2, dynamic_tool_agent c (PyValue.dict kvs) st =
        Except.ok (ToolRet.presented (((st.filtered_books.getD []).take 5).map FilteredBook.title), st2)) ∧
    (fetchKw (pyLower t) = false → filterKw (pyLower t) = false →
      presentKw (pyLower t) = false →
      dynamic_tool_agent c (PyValue.dict kvs) st = Except.ok (ToolRet.pyNone, st)) := by
  refine ⟨?_, ?_, ?_, ?_⟩
  · intro h1
    obtain ⟨st2, heq, _, _, _, _, _, _, _, _⟩ := @dta_fetch c kvs t st hv h1
    exact ⟨st2, heq⟩
  · intro h1 h2
    obtain ⟨st2, heq, _, _, _, _, _, _, _, _⟩ := @dta_filter c kvs t st hv h1 h2
    exact ⟨st2, heq⟩
  · intro h1 h2 h3
    obtain ⟨st2, heq, _, _, _, _, _, _, _, _⟩ := @dta_present c kvs t st hv h1 h2 h3
    exact ⟨st2, heq⟩
  · intro h1 h2 h3
    exact dta_noop hv h1 h2 h3

/-- Witness for C2: a task containing both "rating" and "suggest" runs the
FILTER branch, not PRESENT. -/
theorem dispatcher_priority_witness :
    (pyDictGet [("task", PyValue.str "Sort by RATING, then suggest one")] "task" =
      some (PyValue.str "Sort by RATING, then suggest one")) ∧
    (fetchKw (pyLower "Sort by RATING, then suggest one") = false) ∧
    (filterKw (pyLower "Sort by RATING, then suggest one") = true) ∧
    (presentKw (pyLower "Sort by RATING, then suggest one") = true) ∧
    (∃ st2, dynamic_tool_agent emptyCatalog (PyValue.dict [("task", PyValue.str "Sort by RATING, then suggest one")]) (initState "") =
      Except.ok (ToolRet.filtered (sortByRatingDesc ((initState "").books.getD [])), st2)) :=
  ⟨rfl, rfl, rfl, rfl,
    (dispatcher_priority emptyCatalog [("task", PyValue.str "Sort by RATING, then suggest one")] "Sort by RATING, then suggest one" (initState "") rfl).2.1 rfl rfl⟩

/-- Counterexample to C3 as stated: structurally malformed plan elements do
raise — a mapping without "task" (KeyError), a bare string (TypeError), and
a non-string task value (AttributeError). -/
theorem dispatcher_malformed_raises :
    dynamic_tool_agent emptyCatalog (PyValue.dict []) (initState "") =
      Except.error PErr.keyError ∧
    dynamic_tool_agent emptyCatalog (PyValue.str "find books") (initState "") =
      Except.error PErr.typeError ∧
    dynamic_tool_agent emptyCatalog (PyValue.dict [("task", PyValue.int 3)]) (initState "") =
      Except.error PErr.attributeError :=
  ⟨rfl, rfl, rfl⟩

/-- C3 (amended): for every plan element that is a mapping with a
string-valued "task" entry, executing it through the Step Dispatcher never
raises, whatever the wording; elements missing that shape raise. -/
theorem dispatcher_wf_no_raise (c : Catalog) (td : PyValue) (st : BookState)
    (hw : isWfStep td = true) :
    ∃ r st2, dynamic_tool_agent c td st = Except.ok (r, st2) := by
  obtain ⟨r, st2, heq, _, _, _, _⟩ := @dta_wf c td st hw
  exact ⟨r, st2, heq⟩

/-- Witness for C3 (amended): a well-formed step with no matching keyword
still executes without raising. -/
theorem dispatcher_wf_no_raise_witness :
    (isWfStep (PyValue.dict [("task", PyValue.str "no keywords here")]) = true) ∧
    (∃ r st2, dynamic_tool_agent emptyCatalog (PyValue.dict [("task", PyValue.str "no keywords here")]) (initState "") = Except.ok (r, st2)) :=
  ⟨rfl, dispatcher_wf_no_raise emptyCatalog (PyValue.dict [("task", PyValue.str "no keywords here")]) (initState "") rfl⟩

/-- C5: the FILTER step sorts `state["books"]` (empty when absent) into
non-increasing `averageRating` order; the result is a stable permutation of
the input — the sublist at any fixed rating is unchanged — and its
`{title, authors}` projection is stored into `filtered_books`. -/
theorem filter_sorted_stable (c : Catalog) (kvs : List (String × PyValue))
    (t : String) (st : BookState)
    (hv : pyDictGet kvs "task" = some (PyValue.str t))
    (hf : fetchKw (pyLower t) = false)
    (hfil : filterKw (pyLower t) = true) :
    ∃ st2,
      dynamic_tool_agent c (PyValue.dict kvs) st =
        Except.ok (ToolRet.filtered (sortByRatingDesc (st.books.getD [])), st2) ∧
      st2.filtered_books = some ((sortByRatingDesc (st.books.getD [])).map fun b => ⟨b.title, b.authors⟩) ∧
      (sortByRatingDesc (st.books.getD [])).Pairwise ratingGE ∧
      (∀ q : ℚ, (sortByRatingDesc (st.books.getD [])).filter (fun x => decide (x.averageRating = q)) = (st.books.getD []).filter (fun x => decide (x.averageRating = q))) ∧
      List.Perm (sortByRatingDesc (st.books.getD [])) (st.books.getD []) := by
  obtain ⟨st2, heq, hfb, _, _, _, _, _, _, _⟩ := @dta_filter c kvs t st hv hf hfil
  exact ⟨st2, heq, hfb, sortByRatingDesc_pairwise _,
    fun q => sortByRatingDesc_filter _ q, sortByRatingDesc_perm _⟩

/-- Witness for C5, on the worked example [("A",4), ("B",5), ("C",4)], whose
sort is [("B",5), ("A",4), ("C",4)]. -/
theorem filter_sorted_stable_witness :
    (pyDictGet [("task", PyValue.str "filter the results")] "task" = some (PyValue.str "filter the results")) ∧
    (fetchKw (pyLower "filter the results") = false) ∧
    (filterKw (pyLower "filter the results") = true) ∧
    (∃ st2, dynamic_tool_agent emptyCatalog (PyValue.dict [("task", PyValue.str "filter the results")]) { initState "" with books := some [⟨"A", ["x"], 4⟩, ⟨"B", ["y"], 5⟩, ⟨"C", ["z"], 4⟩] } = Except.ok (ToolRet.filtered (sortByRatingDesc (({ initState "" with books := some [⟨"A", ["x"], 4⟩, ⟨"B", ["y"], 5⟩, ⟨"C", ["z"], 4⟩] } : BookState).books.getD [])), st2) ∧
      st2.filtered_books = some ((sortByRatingDesc (({ initState "" with books := some [⟨"A", ["x"], 4⟩, ⟨"B", ["y"], 5⟩, ⟨"C", ["z"], 4⟩] } : BookState).books.getD [])).map fun b => ⟨b.title, b.authors⟩) ∧
      (sortByRatingDesc (({ initState "" with books := some [⟨"A", ["x"], 4⟩, ⟨"B", ["y"], 5⟩, ⟨"C", ["z"], 4⟩] } : BookState).books.getD [])).Pairwise ratingGE ∧
      (∀ q : ℚ, (sortByRatingDesc (({ initState "" with books := some [⟨"A", ["x"], 4⟩, ⟨"B", ["y"], 5⟩, ⟨"C", ["z"], 4⟩] } : BookState).books.getD [])).filter (fun x => decide (x.averageRating = q)) = (({ initState "" with books := some [⟨"A", ["x"], 4⟩, ⟨"B", ["y"], 5⟩, ⟨"C", ["z"], 4⟩] } : BookState).books.getD []).filter (fun x => decide (x.averageRating = q))) ∧
      List.Perm (sortByRatingDesc (({ initState "" with books := some [⟨"A", ["x"], 4⟩, ⟨"B", ["y"], 5⟩, ⟨"C", ["z"], 4⟩] } : BookState).books.getD [])) (({ initState "" with books := some [⟨"A", ["x"], 4⟩, ⟨"B", ["y"], 5⟩, ⟨"C", ["z"], 4⟩] } : BookState).books.getD [])) ∧
    sortByRatingDesc [⟨"A", ["x"], 4⟩, ⟨"B", ["y"], 5⟩, ⟨"C", ["z"], 4⟩] =
      [⟨"B", ["y"], 5⟩, ⟨"A", ["x"], 4⟩, ⟨"C", ["z"], 4⟩] :=
  ⟨rfl, rfl, rfl,
    filter_sorted_stable emptyCatalog [("task", PyValue.str "filter the results")] "filter the results" { initState "" with books := some [⟨"A", ["x"], 4⟩, ⟨"B", ["y"], 5⟩, ⟨"C", ["z"], 4⟩] } rfl rfl rfl, by decide⟩

/-- C6: the PRESENT step stores the titles of the first `min 5 len` filtered
entries (at most 5) into `presentation`, the first filtered entry (or the
empty record) into `top_book`, and never raises on an empty or absent
`filtered_books`, storing an empty list and empty record instead. -/
theorem present_top5 (c : Catalog) (kvs : List (String × PyValue))
    (t : String) (st : BookState)
    (hv : pyDictGet kvs "task" = some (PyValue.str t))
    (hf : fetchKw (pyLower t) = false)
    (hfil : filterKw (pyLower t) = false)
    (hp : presentKw (pyLower t) = true) :
    ∃ st2,
      dynamic_tool_agent c (PyValue.dict kvs) st =
        Except.ok (ToolRet.presented (((st.filtered_books.getD []).take 5).map FilteredBook.title), st2) ∧
      st2.presentation = some (((st.filtered_books.getD []).take 5).map FilteredBook.title) ∧
      (((st.filtered_books.getD []).take 5).map FilteredBook.title).length ≤ 5 ∧
      ((st.filtered_books.getD []).take 5).map FilteredBook.title = ((st.filtered_books.getD []).take (min 5 (st.filtered_books.getD []).length)).map FilteredBook.title ∧
      st2.top_book = some (match st.filtered_books.getD [] with | [] => TopBook.emptyDict | x :: _ => TopBook.book x) ∧
      (st.filtered_books.getD [] = [] → st2.presentation = some [] ∧ st2.top_book = some TopBook.emptyDict) := by
  obtain ⟨st2, heq, hpres, htop, _, _, _, _, _, _⟩ := @dta_present c kvs t st hv hf hfil hp
  refine ⟨st2, heq, hpres, ?_, ?_, htop, ?_⟩
  · rw [List.length_map, List.length_take]
    omega
  · congr 1
    exact List.take_eq_take.mpr (by omega)
  · intro hempty
    rw [hempty] at hpres htop
    exact ⟨by simpa using hpres, by simpa using htop⟩

/-- Witness for C6: a PRESENT step against a state with no `filtered_books`
stores the empty presentation and the empty top record. -/
theorem present_top5_witness :
    (pyDictGet [("task", PyValue.str "present the result")] "task" = some (PyValue.str "present the result")) ∧
    (fetchKw (pyLower "present the result") = false) ∧
    (filterKw (pyLower "present the result") = false) ∧
    (presentKw (pyLower "present the result") = true) ∧
    (∃ st2, dynamic_tool_agent emptyCatalog (PyValue.dict [("task", PyValue.str "present the result")]) (initState "") = Except.ok (ToolRet.presented ((((initState "").filtered_books.getD []).take 5).map FilteredBook.title), st2) ∧
      st2.presentation = some ((((initState "").filtered_books.getD []).take 5).map FilteredBook.title) ∧
      ((((initState "").filtered_books.getD []).take 5).map FilteredBook.title).length ≤ 5 ∧
      (((initState "").filtered_books.getD []).take 5).map FilteredBook.title = (((initState "").filtered_books.getD []).take (min 5 ((initState "").filtered_books.getD []).length)).map FilteredBook.title ∧
      st2.top_book = some (match (initState "").filtered_books.getD [] with | [] => TopBook.emptyDict | x :: _ => TopBook.book x) ∧
      ((initState "").filtered_books.getD [] = [] → st2.presentation = some [] ∧ st2.top_book = some TopBook.emptyDict)) :=
  ⟨rfl, rfl, rfl, rfl, present_top5 emptyCatalog [("task", PyValue.str "present the result")] "present the result" (initState "") rfl rfl rfl rfl⟩

/-- C9: FETCH writes `state["books"]` as one three-field
`{title, authors, averageRating}` projection per fetched item, with the
defaults "N/A", ["N/A"] and 0 substituted for missing fields; the length
equals the number of items and is bounded by the requested maximum whenever
the response honours it; an empty result set yields an empty list. -/
theorem fetch_projection (c : Catalog) (kvs : List (String × PyValue))
    (t : String) (st : BookState)
    (hv : pyDictGet kvs "task" = some (PyValue.str t))
    (hf : fetchKw (pyLower t) = true)
    (hlen : ((c (extract_subject_from_query (st.user_query.getD "")) 10).getD []).length ≤ 10) :
    ∃ st2,
      dynamic_tool_agent c (PyValue.dict kvs) st =
        Except.ok (ToolRet.fetched (fetch_books c (extract_subject_from_query (st.user_query.getD "")) 10), st2) ∧
      st2.books = some ((fetch_books c (extract_subject_from_query (st.user_query.getD "")) 10).map fun b => ⟨b.title, b.authors, b.averageRating⟩) ∧
      (fetch_books c (extract_subject_from_query (st.user_query.getD "")) 10).map (fun b => (⟨b.title, b.authors, b.averageRating⟩ : BookProj)) = ((c (extract_subject_from_query (st.user_query.getD "")) 10).getD []).map (fun it => ⟨((it.volumeInfo.getD emptyVolumeInfo).title).getD "N/A", ((it.volumeInfo.getD emptyVolumeInfo).authors).getD ["N/A"], ((it.volumeInfo.getD emptyVolumeInfo).averageRating).getD 0⟩) ∧
      (fetch_books c (extract_subject_from_query (st.user_query.getD "")) 10).length = ((c (extract_subject_from_query (st.user_query.getD "")) 10).getD []).length ∧
      (fetch_books c (extract_subject_from_query (st.user_query.getD "")) 10).length ≤ 10 ∧
      (c (extract_subject_from_query (st.user_query.getD "")) 10 = some [] → fetch_books c (extract_subject_from_query (st.user_query.getD "")) 10 = []) := by
  obtain ⟨st2, heq, hbooks, _, _, _, _, _, _, _⟩ := @dta_fetch c kvs t st hv hf
  refine ⟨st2, heq, hbooks, ?_, ?_, ?_, ?_⟩
  · unfold fetch_books
    rw [List.map_map]
    rfl
  · unfold fetch_books
    rw [List.length_map]
  · unfold fetch_books
    rw [List.length_map]
    exact hlen
  · intro hnone
    unfold fetch_books
    rw [hnone]
    rfl

/-- Witness for C9: a one-item response whose only field is the title. -/
theorem fetch_projection_witness :
    (pyDictGet [("task", PyValue.str "search for books")] "task" = some (PyValue.str "search for books")) ∧
    (fetchKw (pyLower "search for books") = true) ∧
    (((oneBookCatalog (extract_subject_from_query (((initState "a scary ghost story").user_query).getD "")) 10).getD []).length ≤ 10) ∧
    (∃ st2, dynamic_tool_agent oneBookCatalog (PyValue.dict [("task", PyValue.str "search for books")]) (initState "a scary ghost story") = Except.ok (ToolRet.fetched (fetch_books oneBookCatalog (extract_subject_from_query (((initState "a scary ghost story").user_query).getD "")) 10), st2) ∧
      st2.books = some ((fetch_books oneBookCatalog (extract_subject_from_query (((initState "a scary ghost story").user_query).getD "")) 10).map fun b => ⟨b.title, b.authors, b.averageRating⟩) ∧
      (fetch_books oneBookCatalog (extract_subject_from_query (((initState "a scary ghost story").user_query).getD "")) 10).map (fun b => (⟨b.title, b.authors, b.averageRating⟩ : BookProj)) = ((oneBookCatalog (extract_subject_from_query (((initState "a scary ghost story").user_query).getD "")) 10).getD []).map (fun it => ⟨((it.volumeInfo.getD emptyVolumeInfo).title).getD "N/A", ((it.volumeInfo.getD emptyVolumeInfo).authors).getD ["N/A"], ((it.volumeInfo.getD emptyVolumeInfo).averageRating).getD 0⟩) ∧
      (fetch_books oneBookCatalog (extract_subject_from_query (((initState "a scary ghost story").user_query).getD "")) 10).length = ((oneBookCatalog (extract_subject_from_query (((initState "a scary ghost story").user_query).getD "")) 10).getD []).length ∧
      (fetch_books oneBookCatalog (extract_subject_from_query (((initState "a scary ghost story").user_query).getD "")) 10).length ≤ 10 ∧
      (oneBookCatalog (extract_subject_from_query (((initState "a scary ghost story").user_query).getD "")) 10 = some [] → fetch_books oneBookCatalog (extract_subject_from_query (((initState "a scary ghost story").user_query).getD "")) 10 = [])) :=
  ⟨rfl, rfl, by decide,
    fetch_projection oneBookCatalog [("task", PyValue.str "search for books")] "search for books" (initState "a scary ghost story") rfl rfl (by decide)⟩

/-- C4 (code bug): "sci-fi" is a listed phrase of the first table entry, yet
the extractor returns the default "fiction" for the input "sci-fi", because
punctuation stripping removes the hyphen from the query while the phrase
keeps it; phrases without punctuation behave as claimed ("I want a scary
ghost story" gives "horror"). -/
theorem genre_scifi_phrase_unreachable :
    ("science fiction", ["science fiction", "sci-fi", "sci fi"]) ∈ subject_keywords ∧
    substrB "sci-fi" "sci-fi" = true ∧
    extract_subject_from_query "sci-fi" = "fiction" ∧
    extract_subject_from_query "I want a scary ghost story" = "horror" := by
  refine ⟨?_, rfl, by decide, by decide⟩
  simp [subject_keywords]

/-- C10 (code bug): with the worked three-step plan, a catalog returning
zero items ends the run with `presentation` present (as the empty list), so
the app1.py panel takes the `st.write` branch and shows an empty list rather
than the "no recommendations" notice; with a one-item catalog the shown list
is the nonempty title list. -/
theorem ui_zero_items_shows_empty_list :
    (execN emptyCatalog 3 (plan_node (initState "Suggest the best science fiction book") examplePlan)).map display = Except.ok (Display.titles []) ∧
    Display.titles ([] : List String) ≠ Display.notice ∧
    (execN oneBookCatalog 3 (plan_node (initState "Suggest the best science fiction book") examplePlan)).map display = Except.ok (Display.titles ["Dune"]) := by
  refine ⟨rfl, by decide, rfl⟩

/-! ### Parser invariants: consumed input is a suffix, and a successful list
parse consumed a closing bracket -/

lemma skipWs_sub (s : List Char) : skipWs s ⊆ s :=
  (List.dropWhile_sublist isWsChar).subset

lemma parseStrBody_sub {q : Char} : ∀ {s b r : List Char},
    parseStrBody q s = some (b, r) → r ⊆ s := by
  intro s
  induction s with
  | nil => intro b r h; cases h
  | cons c cs ih =>
    intro b r h
    rw [parseStrBody] at h
    split at h
    · cases h
      exact List.subset_cons_self c cs
    · split at h
      · cases h
      · split at h
        · rename_i hsb
          cases h
          exact fun a ha => List.subset_cons_self c cs (ih hsb ha)
        · cases h

lemma parse_inv : ∀ fuel : Nat,
    (∀ s v r, parseValue fuel s = some (v, r) → r ⊆ s) ∧
    (∀ s xs r, parseListRest fuel s = some (xs, r) → (']' ∈ s ∧ r ⊆ s)) ∧
    (∀ s kvs r, parseDictRest fuel s = some (kvs, r) → r ⊆ s) := by
  intro fuel
  induction fuel with
  | zero =>
    refine ⟨?_, ?_, ?_⟩ <;>
      · intro s a r h
        simp [parseValue, parseListRest, parseDictRest] at h
  | succ fuel ih =>
    obtain ⟨ihP, ihQ, ihR⟩ := ih
    refine ⟨?_, ?_, ?_⟩
    · intro s v r h
      rw [parseValue] at h
      split at h
      · cases h
      · rename_i c cs hsw
        have hcs : c :: cs ⊆ s := hsw ▸ skipWs_sub s
        split at h
        · split at h
          · rename_i hsb
            cases h
            exact fun a ha => hcs (List.mem_cons_of_mem c (parseStrBody_sub hsb ha))
          · cases h
        · split at h
          · split at h
            · rename_i hlr
              cases h
              exact fun a ha => hcs (List.mem_cons_of_mem c ((ihQ _ _ _ hlr).2 ha))
            · cases h
          · split at h
            · split at h
              · rename_i hdr
                cases h
                exact fun a ha => hcs (List.mem_cons_of_mem c (ihR _ _ _ hdr ha))
              · cases h
            · cases h
    · intro s xs r h
      rw [parseListRest] at h
      split at h
      · cases h
      · rename_i c cs hsw
        have hcs : c :: cs ⊆ s := hsw ▸ skipWs_sub s
        split at h
        · rename_i hc
          cases h
          refine ⟨?_, fun a ha => hcs (List.mem_cons_of_mem c ha)⟩
          have hce : (']' : Char) = c := (eq_of_beq hc).symm
          exact hcs (hce ▸ List.mem_cons_self c _)
        · split at h
          · rename_i hpv
            have hr2 := ihP _ _ _ hpv
            split at h
            · cases h
            · rename_i d ds hswr
              have hds : d :: ds ⊆ s := by
                intro a ha
                exact hcs (hr2 ((hswr ▸ skipWs_sub _) ha))
              split at h
              · rename_i hd
                cases h
                refine ⟨?_, fun a ha => hds (List.mem_cons_of_mem d ha)⟩
                have hde : (']' : Char) = d := (eq_of_beq hd).symm
                exact hds (hde ▸ List.mem_cons_self d _)
              · split at h
                · split at h
                  · rename_i hlr2
                    cases h
                    obtain ⟨hmem, hsub⟩ := ihQ _ _ _ hlr2
                    have hdss : ds ⊆ s :=
                      fun a ha => hds (List.mem_cons_of_mem d ha)
                    exact ⟨hdss hmem, fun a ha => hdss (hsub ha)⟩
                  · cases h
                · cases h
          · cases h
    · intro s kvs r h
      rw [parseDictRest] at h
      split at h
      · cases h
      · rename_i c cs hsw
        have hcs : c :: cs ⊆ s := hsw ▸ skipWs_sub s
        split at h
        · cases h
          exact fun a ha => hcs (List.mem_cons_of_mem c ha)
        · split at h
          · split at h
            · rename_i hsb
              have hrk : _ ⊆ cs := parseStrBody_sub hsb
              split at h
              · rename_i r2 hswk
                split at h
                · rename_i hpv
                  have hr3 := ihP _ _ _ hpv
                  split at h
                  · cases h
                  · rename_i d ds hswv
                    have hds : d :: ds ⊆ s := by
                      intro a ha
                      refine hcs (List.mem_cons_of_mem c (hrk ?_))
                      refine (hswk ▸ skipWs_sub _) ?_
                      exact List.mem_cons_of_mem ':' (hr3 ((hswv ▸ skipWs_sub _) ha))
                    split at h
                    · cases h
                      exact fun a ha => hds (List.mem_cons_of_mem d ha)
                    · split at h
                      · split at h
                        · rename_i hdr2
                          cases h
                          have hsub := ihR _ _ _ hdr2
                          exact fun a ha =>
                            hds (List.mem_cons_of_mem d (hsub ha))
                        · cases h
                      · cases h
                · cases h
              · cases h
            · cases h
          · cases h

lemma dropWhile_head_false {p : Char → Bool} :
    ∀ {l c cs}, List.dropWhile p l = c :: cs → p c = false := by
  intro l
  induction l with
  | nil => intro c cs h; cases h
  | cons a l ih =>
    intro c cs h
    rw [List.dropWhile_cons] at h
    split at h
    · exact ih h
    · rename_i hpa
      cases h
      simpa using hpa

lemma dropWhile_all_append {p : Char → Bool} {l1 l2 : List Char}
    (h : ∀ x ∈ l1, p x = true) :
    List.dropWhile p (l1 ++ l2) = List.dropWhile p l2 := by
  rw [List.dropWhile_append, List.dropWhile_eq_nil_iff.mpr h]
  simp

lemma isWsChar_not_lb {c : Char} (h : isWsChar c = true) : (!(c == '[')) = true := by
  simp only [isWsChar, Bool.or_eq_true, beq_iff_eq] at h
  rcases h with ((h | h) | h) | h <;> subst h <;> rfl

lemma parseValue_list_bracket {fuel : Nat} {s : List Char} {xs : List PyValue}
    {r : List Char} (h : parseValue fuel s = some (PyValue.list xs, r)) :
    bracketPairB s = true := by
  cases fuel with
  | zero => cases h
  | succ fuel =>
    rw [parseValue] at h
    split at h
    · cases h
    · rename_i c cs hsw
      split at h
      · split at h
        · cases h
        · cases h
      · split at h
        · rename_i hc
          split at h
          · rename_i hlr
            cases h
            have hmem : ']' ∈ cs := ((parse_inv fuel).2.1 _ _ _ hlr).1
            have hsplit : s = s.takeWhile isWsChar ++ (c :: cs) := by
              conv_lhs => rw [← List.takeWhile_append_dropWhile isWsChar s]
              rw [show List.dropWhile isWsChar s = c :: cs from hsw]
            unfold bracketPairB
            rw [hsplit,
              dropWhile_all_append fun x hx => isWsChar_not_lb (List.mem_takeWhile_imp hx),
              List.dropWhile_cons]
            have hcf : (!(c == '[')) = false := by rw [hc]; rfl
            rw [hcf]
            simp only [Bool.false_eq_true, if_false, List.drop_succ_cons, List.drop_zero]
            exact List.any_eq_true.mpr ⟨']', hmem, rfl⟩
          · cases h
        · split at h
          · split at h
            · cases h
            · cases h
          · cases h

lemma pyLiteralEval_list_bracket {s : List Char} {xs : List PyValue}
    (h : pyLiteralEval s = some (PyValue.list xs)) : bracketPairB s = true := by
  unfold pyLiteralEval at h
  split at h
  · rename_i v r hp
    split at h
    · cases h
      exact parseValue_list_bracket hp
    · cases h
  · cases h

lemma bracketPairB_intro (l m r : List Char) :
    bracketPairB (l ++ '[' :: (m ++ ']' :: r)) = true := by
  induction l with
  | nil =>
    unfold bracketPairB
    rw [List.nil_append, List.dropWhile_cons]
    simp only [show (!('[' == '[')) = false from rfl, Bool.false_eq_true, if_false,
      List.drop_succ_cons, List.drop_zero]
    exact List.any_eq_true.mpr ⟨']', by simp, rfl⟩
  | cons a l ih =>
    unfold bracketPairB at ih ⊢
    rw [List.cons_append, List.dropWhile_cons]
    by_cases hab : (a == '[') = true
    · rw [if_neg (by rw [hab]; simp)]
      simp only [List.drop_succ_cons, List.drop_zero]
      exact List.any_eq_true.mpr ⟨']', by simp, rfl⟩
    · have hab2 : (a == '[') = false := by simpa using hab
      rw [if_pos (by rw [hab2]; rfl)]
      exact ih

lemma bracketPairB_elim {s : List Char} (h : bracketPairB s = true) :
    ∃ l m r, s = l ++ '[' :: (m ++ ']' :: r) := by
  unfold bracketPairB at h
  cases hd : List.dropWhile (fun c => !(c == '[')) s with
  | nil => rw [hd] at h; simp at h
  | cons c cs =>
    rw [hd] at h
    simp only [List.drop_succ_cons, List.drop_zero] at h
    obtain ⟨x, hx, hbe⟩ := List.any_eq_true.mp h
    have hx2 : x = ']' := eq_of_beq hbe
    subst hx2
    obtain ⟨m, r, hmr⟩ := List.append_of_mem hx
    have hc : c = '[' := by
      have := dropWhile_head_false hd
      simpa using this
    subst hc
    refine ⟨s.takeWhile (fun c => !(c == '[')), m, r, ?_⟩
    conv_lhs => rw [← List.takeWhile_append_dropWhile (fun c => !(c == '[')) s]
    rw [hd, hmr]

lemma pyStrip_decomp (s : List Char) : ∃ a b, s = a ++ pyStrip s ++ b := by
  refine ⟨s.takeWhile isWsChar,
    ((s.dropWhile isWsChar).reverse.takeWhile isWsChar).reverse, ?_⟩
  unfold pyStrip
  conv_lhs => rw [← List.takeWhile_append_dropWhile isWsChar s]
  rw [List.append_assoc]
  congr 1
  rw [← List.reverse_append, List.takeWhile_append_dropWhile, List.reverse_reverse]

lemma bracketPairB_pyStrip {s : List Char} (h : bracketPairB (pyStrip s) = true) :
    bracketPairB s = true := by
  obtain ⟨l, m, r, hs⟩ := bracketPairB_elim h
  obtain ⟨a, b, hd⟩ := pyStrip_decomp s
  rw [hd, hs]
  have hsh : a ++ (l ++ '[' :: (m ++ ']' :: r)) ++ b =
      (a ++ l) ++ '[' :: (m ++ ']' :: (r ++ b)) := by
    simp [List.append_assoc]
  rw [hsh]
  exact bracketPairB_intro _ _ _

lemma extractSpan_some_bracket {s sp : List Char} (h : extractSpan s = some sp) :
    bracketPairB s = true := by
  unfold extractSpan at h
  split at h
  · cases h
  · rename_i c u hd
    split at h
    · cases h
    · rename_i hne
      cases hw : u.reverse.dropWhile (fun d => !(d == ']')) with
      | nil =>
        exfalso
        apply hne
        rw [hw]
        rfl
      | cons e es =>
        have he : e = ']' := by
          have := dropWhile_head_false hw
          simpa using this
        have hmem : ']' ∈ u := by
          have h1 : e ∈ u.reverse.dropWhile (fun d => !(d == ']')) := by
            rw [hw]
            exact List.mem_cons_self e es
          have h2 : e ∈ u.reverse := (List.dropWhile_sublist _).subset h1
          rw [List.mem_reverse] at h2
          rwa [he] at h2
        unfold bracketPairB
        rw [hd]
        simp only [List.drop_succ_cons, List.drop_zero]
        exact List.any_eq_true.mpr ⟨']', hmem, rfl⟩

lemma extractSpan_mid {pre mid post : List Char}
    (hpre : '[' ∉ pre) (hpost : ']' ∉ post) :
    extractSpan (pre ++ ('[' :: (mid ++ [']'])) ++ post) =
      some ('[' :: (mid ++ [']'])) := by
  have hpre2 : ∀ x ∈ pre, (!(x == '[')) = true := by
    intro x hx
    have hne : x ≠ '[' := fun he => hpre (he ▸ hx)
    simp [hne]
  have hpost2 : ∀ x ∈ post.reverse, (!(x == ']')) = true := by
    intro x hx
    have hne : x ≠ ']' := fun he => hpost (he ▸ (List.mem_reverse.mp hx))
    simp [hne]
  have h1 : List.dropWhile (fun c => !(c == '['))
      (pre ++ ('[' :: (mid ++ [']'])) ++ post) = '[' :: (mid ++ [']'] ++ post) := by
    rw [List.append_assoc, dropWhile_all_append hpre2, List.cons_append,
      List.dropWhile_cons]
    simp
  have h2 : List.dropWhile (fun d => !(d == ']'))
      (post.reverse ++ (']' :: mid.reverse)) = ']' :: mid.reverse := by
    rw [dropWhile_all_append hpost2, List.dropWhile_cons]
    simp
  unfold extractSpan
  rw [h1]
  simp [h2]

/-- C7: a model reply with no `[` later followed by `]` always makes
`plan_agent` raise (never an empty plan), and whenever `plan_agent` returns
normally its result is the deserialised list. -/
theorem plan_parse_failure (content : String) :
    (bracketPairB content.toList = false → ∃ e, plan_agent content = Except.error e) ∧
    (∀ xs, plan_agent content = Except.ok xs →
      pyLiteralEval ((extractSpan (pyStrip content.toList)).getD (pyStrip content.toList)) = some (PyValue.list xs)) := by
  constructor
  · intro hnb
    have hex : extractSpan (pyStrip content.toList) = Option.none := by
      cases hex : extractSpan (pyStrip content.toList) with
      | none => rfl
      | some sp =>
        have h1 := extractSpan_some_bracket hex
        have h2 := bracketPairB_pyStrip h1
        rw [hnb] at h2
        cases h2
    unfold plan_agent
    rw [hex]
    simp only [Option.getD_none]
    cases hpe : pyLiteralEval (pyStrip content.toList) with
    | none => exact ⟨PErr.valueError, rfl⟩
    | some v =>
      cases v with
      | list xs =>
        have h1 := pyLiteralEval_list_bracket hpe
        have h2 := bracketPairB_pyStrip h1
        rw [hnb] at h2
        cases h2
      | str s => exact ⟨PErr.assertError, rfl⟩
      | int n => exact ⟨PErr.assertError, rfl⟩
      | dict kvs => exact ⟨PErr.assertError, rfl⟩
      | pynone => exact ⟨PErr.assertError, rfl⟩
  · intro xs hok
    unfold plan_agent at hok
    split at hok
    · rename_i hpe
      cases hok
      exact hpe
    · cases hok
    · cases hok

/-- Witness for C7: a reply with no bracketed list raises rather than
yielding an empty plan. -/
theorem plan_parse_failure_witness :
    (bracketPairB ("I cannot produce a plan.").toList = false) ∧
    (∃ e, plan_agent "I cannot produce a plan." = Except.error e) :=
  ⟨rfl, (plan_parse_failure "I cannot produce a plan.").1 rfl⟩

/-- Counterexample to C8 as stated: the reply consists of the well-formed
list ["a"] followed by commentary containing a later `]`, yet `plan_agent`
raises instead of returning that first list, because the greedy regex spans
to the last `]`. -/
theorem plan_greedy_counterexample :
    pyLiteralEval ("[\"a\"]".toList) = some (PyValue.list [PyValue.str "a"]) ∧
    plan_agent "[\"a\"] then ]" = Except.error PErr.valueError :=
  ⟨rfl, rfl⟩

/-- C8 (amended): the Plan Generator extracts the span from the first `[` to
the LAST `]` of the stripped reply (the longest bracketed substring, not the
shortest); leading commentary without `[` and trailing commentary without
`]` are tolerated and the span deserialises to the plan. -/
theorem plan_extract_greedy (content : String) (pre mid post : List Char)
    (xs : List PyValue)
    (hsplit : pyStrip content.toList = pre ++ ('[' :: (mid ++ [']'])) ++ post)
    (hpre : '[' ∉ pre) (hpost : ']' ∉ post)
    (hL : pyLiteralEval ('[' :: (mid ++ [']'])) = some (PyValue.list xs)) :
    extractSpan (pyStrip content.toList) = some ('[' :: (mid ++ [']'])) ∧
    plan_agent content = Except.ok xs := by
  have hex : extractSpan (pyStrip content.toList) = some ('[' :: (mid ++ [']'])) := by
    rw [hsplit]
    exact extractSpan_mid hpre hpost
  refine ⟨hex, ?_⟩
  unfold plan_agent
  rw [hex]
  simp only [Option.getD_some]
  rw [hL]

/-- Witness for C8 (amended): leading prose, a two-element list, and
bracket-free trailing prose parse to that list. -/
theorem plan_extract_greedy_witness :
    (pyStrip ("Sure: [\"a\", \"b\"] no list after").toList =
      ("Sure: ").toList ++ ('[' :: (("\"a\", \"b\"").toList ++ [']'])) ++ (" no list after").toList) ∧
    ('[' ∉ ("Sure: ").toList) ∧ (']' ∉ (" no list after").toList) ∧
    (pyLiteralEval ('[' :: (("\"a\", \"b\"").toList ++ [']'])) =
      some (PyValue.list [PyValue.str "a", PyValue.str "b"])) ∧
    (extractSpan (pyStrip ("Sure: [\"a\", \"b\"] no list after").toList) =
      some ('[' :: (("\"a\", \"b\"").toList ++ [']']))) ∧
    plan_agent "Sure: [\"a\", \"b\"] no list after" =
      Except.ok [PyValue.str "a", PyValue.str "b"] := by
  have h := plan_extract_greedy "Sure: [\"a\", \"b\"] no list after"
    ("Sure: ").toList (("\"a\", \"b\"").toList) ((" no list after").toList)
    [PyValue.str "a", PyValue.str "b"] (by decide) (by decide) (by decide) rfl
  exact ⟨by decide, by decide, by decide, rfl, h.1, h.2⟩

end BookRec
